import Mathlib

set_option maxRecDepth 10000

/-!
Verification development for the AAR backend orchestrator (src/backend/main.js).

The definitions below are a shallow embedding of the permission-gated agentic
execution loop: the directive parser (ModuleService.parseModuleCommand), the
module invocation boundary (ModuleService.runModule), the provider request
builders of AIService, and the two HTTP handlers POST /message and
POST /approve-module, with the pending-approval table and the per-session
chat history made explicit state.

JavaScript strings are modelled as Lean String / List Char; the character
classes of the regular expressions are transcribed from the ECMAScript
definitions of \w, \s and the dot.  External collaborators (the LLM
providers, markdown.toHTML, JSON.stringify, Date.now-based id generation)
are modelled as oracle parameters of the handlers, matching the spec's
treatment of them as boundary collaborators.
-/

/-- ECMAScript word character class \w = [A-Za-z0-9_] (no unicode flag). -/
def isWordChar (c : Char) : Bool :=
  (48 ≤ c.toNat && c.toNat ≤ 57) || (65 ≤ c.toNat && c.toNat ≤ 90) ||
  (97 ≤ c.toNat && c.toNat ≤ 122) || c.toNat = 95

/-- ECMAScript whitespace class \s: space, tab, LF, VT, FF, CR, NBSP, the
unicode space separators, the line separators and the BOM. -/
def isJsSpace (c : Char) : Bool :=
  c.toNat = 32 || c.toNat = 9 || c.toNat = 10 || c.toNat = 11 || c.toNat = 12 ||
  c.toNat = 13 || c.toNat = 160 || c.toNat = 0x1680 ||
  (0x2000 ≤ c.toNat && c.toNat ≤ 0x200a) ||
  c.toNat = 0x2028 || c.toNat = 0x2029 || c.toNat = 0x202f ||
  c.toNat = 0x205f || c.toNat = 0x3000 || c.toNat = 0xfeff

/-- ECMAScript line terminators, the characters the regexp dot does not match. -/
def isLineTerm (c : Char) : Bool :=
  c.toNat = 10 || c.toNat = 13 || c.toNat = 0x2028 || c.toNat = 0x2029

/-- Strip the optional leading slash of the regexp: the pattern piece
escaped-slash-question-mark consumes one slash when present. -/
def stripSlash (l : List Char) : List Char :=
  match l with
  | c :: r => if c = '/' then r else l
  | [] => l

/-- Consume an exact literal prefix, failing when it is absent. -/
def stripLit : List Char → List Char → Option (List Char)
  | [], l => some l
  | _ :: _, [] => none
  | c :: cs, x :: xs => if x = c then stripLit cs xs else none

/-- Consume the regexp piece of one-or-more whitespace characters greedily. -/
def stripSpaces1 (l : List Char) : Option (List Char) :=
  if (l.takeWhile isJsSpace).isEmpty then none else some (l.dropWhile isJsSpace)

/-- Consume a greedy nonempty run of word characters: the regexp groups. -/
def takeWord1 (l : List Char) : Option (List Char × List Char) :=
  if (l.takeWhile isWordChar).isEmpty then none
  else some (l.takeWhile isWordChar, l.dropWhile isWordChar)

/-- Semantics of the optional trailing parameters group of the regexp:
one-or-more whitespace characters followed by a greedy nonempty dot-plus,
with the backtracking of the whitespace quantifier when the rest of the
input is all whitespace. `none` means the optional group did not participate
in the match (the JS capture is undefined). -/
def optParams (r : List Char) : Option (List Char) :=
  if (r.takeWhile isJsSpace).isEmpty then none
  else
    if (r.dropWhile isJsSpace).isEmpty then
      match ((r.drop 1).reverse.find? (fun c => !isLineTerm c)) with
      | some c => some [c]
      | none => none
    else some ((r.dropWhile isJsSpace).takeWhile (fun c => !isLineTerm c))

/-- Raw capture groups of one successful application of the regexp
at the head of the input. -/
structure RawMatch where
  module : List Char
  command : List Char
  parameters : List Char
  deriving DecidableEq, Repr

/-- One attempt of the regexp anchored at the head of the input:
optional slash, literal run, whitespace, literal module, whitespace,
word group, whitespace, word group, optional parameters group. -/
def matchAt (l : List Char) : Option RawMatch :=
  (stripLit ['r', 'u', 'n'] (stripSlash l)).bind fun l1 =>
  (stripSpaces1 l1).bind fun l2 =>
  (stripLit ['m', 'o', 'd', 'u', 'l', 'e'] l2).bind fun l3 =>
  (stripSpaces1 l3).bind fun l4 =>
  (takeWord1 l4).bind fun p =>
  (stripSpaces1 p.2).bind fun l6 =>
  (takeWord1 l6).bind fun q =>
  some ⟨p.1, q.1, (optParams q.2).getD []⟩

/-- Leftmost-match scan of regexp.exec: try the pattern at every start
position, earliest first. -/
def scan : List Char → Option RawMatch
  | [] => matchAt []
  | c :: rest =>
    match matchAt (c :: rest) with
    | some m => some m
    | none => scan rest

/-- Parsed directive tuple as returned by ModuleService.parseModuleCommand. -/
structure Directive where
  module : String
  command : String
  parameters : String
  deriving DecidableEq, Repr

/-- ModuleService.parseModuleCommand (main.js lines 405-430): find the first
match of the regexp anywhere in the text, then split a dotted module token
into module and command.  (The dotted branch is unreachable, because the
module group of the regexp is built from word characters only; it is kept
to mirror the source.) -/
def parseModuleCommand (text : String) : Option Directive :=
  match scan text.toList with
  | none => none
  | some m =>
    if m.module.contains '.' then
      some ⟨String.mk ((m.module.splitOn '.').headD []),
            String.mk (((m.module.splitOn '.').drop 1).headD []),
            String.mk m.parameters⟩
    else
      some ⟨String.mk m.module, String.mk m.command, String.mk m.parameters⟩

/-- The raw regexp match rendered as the directive object. -/
def RawMatch.toDirective (m : RawMatch) : Directive :=
  ⟨String.mk m.module, String.mk m.command, String.mk m.parameters⟩

/-- Substring test of String.prototype.includes, over character lists. -/
def hasSubstr (needle : List Char) : List Char → Bool
  | [] => needle.isEmpty
  | c :: t => needle.isPrefixOf (c :: t) || hasSubstr needle t

/-- The double-quote character (written by code to avoid a quote literal). -/
def dqChar : Char := Char.ofNat 34

/-- The single-quote character. -/
def sqChar : Char := Char.ofNat 39

/-- One attempt, anchored at the head, of the quoted-query regexp of
ModuleService.runModule: literal query, optional whitespace, equals sign,
optional whitespace, an opening quote of either kind, a greedy nonempty run
of non-quote characters (the capture), and a closing quote of either kind. -/
def matchQueryQuotedAt (l : List Char) : Option (List Char) :=
  match stripLit ['q', 'u', 'e', 'r', 'y'] l with
  | none => none
  | some l1 =>
    match stripLit ['='] (l1.dropWhile isJsSpace) with
    | none => none
    | some l2 =>
      match (l2.dropWhile isJsSpace) with
      | [] => none
      | q :: rest =>
        if q = dqChar || q = sqChar then
          if (rest.takeWhile (fun c => !(c = dqChar || c = sqChar))).isEmpty then none
          else
            match rest.dropWhile (fun c => !(c = dqChar || c = sqChar)) with
            | [] => none
            | _ :: _ => some (rest.takeWhile (fun c => !(c = dqChar || c = sqChar)))
        else none

/-- Leftmost scan for the quoted-query regexp. -/
def scanQueryQuoted : List Char → Option (List Char)
  | [] => matchQueryQuotedAt []
  | c :: rest =>
    match matchQueryQuotedAt (c :: rest) with
    | some g => some g
    | none => scanQueryQuoted rest

/-- One attempt, anchored at the head, of the bare-query regexp of
ModuleService.runModule: literal query, optional whitespace, equals sign,
optional whitespace, and a greedy nonempty run of non-whitespace characters. -/
def matchQueryBareAt (l : List Char) : Option (List Char) :=
  match stripLit ['q', 'u', 'e', 'r', 'y'] l with
  | none => none
  | some l1 =>
    match stripLit ['='] (l1.dropWhile isJsSpace) with
    | none => none
    | some l2 =>
      if ((l2.dropWhile isJsSpace).takeWhile (fun c => !isJsSpace c)).isEmpty then none
      else some ((l2.dropWhile isJsSpace).takeWhile (fun c => !isJsSpace c))

/-- Leftmost scan for the bare-query regexp. -/
def scanQueryBare : List Char → Option (List Char)
  | [] => matchQueryBareAt []
  | c :: rest =>
    match matchQueryBareAt (c :: rest) with
    | some g => some g
    | none => scanQueryBare rest

/-- Parameter preprocessing of ModuleService.runModule (main.js lines
381-395): when the parameter string contains a query assignment, extract
the quoted or bare query value; otherwise pass the parameters through. -/
def parseParamsJS (parameters : String) : String :=
  if parameters ≠ "" && hasSubstr "query=".toList parameters.toList then
    match scanQueryQuoted parameters.toList with
    | some g => String.mk g
    | none =>
      match scanQueryBare parameters.toList with
      | some g => String.mk g
      | none => parameters
  else parameters

/-- Outcome of invoking a module handler: a normal return or a thrown
exception carrying its message. -/
inductive HandlerBehavior where
  | ret (v : String)
  | throw (msg : String)
  deriving DecidableEq, Repr

/-- One command of a loaded module: the typeof-function check and the
handler itself, whose result values are modelled as opaque strings. -/
structure CommandSpec where
  isFunction : Bool
  run : String → HandlerBehavior

/-- A loaded module: its command table. -/
structure ModuleSpec where
  commands : String → Option CommandSpec

/-- Structured result of ModuleService.runModule: success with the handler
value, or a structured error object. -/
inductive RunResult where
  | ok (result : String)
  | err (msg : String)
  deriving DecidableEq, Repr

/-- ModuleService.runModule (main.js lines 371-403).  The registry argument
models loadModule, which catches its own failures and returns null (none).
A missing module or command yields the command-not-found error object, a
non-function handler yields its error object, a thrown handler exception is
caught and becomes an error object carrying the message, and a normal
handler return becomes a success object. -/
def runModule (registry : String → Option ModuleSpec)
    (moduleName commandName parameters : String) : RunResult :=
  match registry moduleName with
  | none =>
    .err ("Command \"" ++ commandName ++ "\" not found in \"" ++ moduleName ++ "\"")
  | some m =>
    match m.commands commandName with
    | none =>
      .err ("Command \"" ++ commandName ++ "\" not found in \"" ++ moduleName ++ "\"")
    | some cmd =>
      if !cmd.isFunction then .err "Handler is not a function"
      else
        match cmd.run (parseParamsJS parameters) with
        | .ret v => .ok v
        | .throw msg => .err msg

/-- A stored chat message of the Session Store. -/
structure ChatMessage where
  role : String
  content : String
  timestamp : String
  deriving DecidableEq, Repr

/-- A message object sent to a provider API.  Messages spread from stored
history keep their timestamp field; freshly built ones have none. -/
structure ProviderMsg where
  role : String
  content : String
  timestamp : Option String := none
  deriving DecidableEq, Repr

/-- Inclusion of a stored history message into a provider request. -/
def toProviderMsg (m : ChatMessage) : ProviderMsg :=
  ⟨m.role, m.content, some m.timestamp⟩

/-- Array.prototype.slice with argument -10: the most recent ten entries. -/
def jsSliceLast10 (l : List ChatMessage) : List ChatMessage :=
  l.drop (l.length - 10)

/-- The two extra messages appended when a module output is provided. -/
def moduleOutputMsgs (moduleOutputJson : Option String) : List ProviderMsg :=
  match moduleOutputJson with
  | none => []
  | some j =>
    [⟨"system", "Module execution result: " ++ j, none⟩,
     ⟨"user", "Please respond to the user with the module execution result.", none⟩]

/-- Request messages built by AIService.getOpenAIResponse (main.js lines
221-243): system prompt, then the last ten history entries when the history
is nonempty, then the user prompt, then the optional module-output pair. -/
def getOpenAIRequestMessages (prompt systemPrompt : String)
    (moduleOutputJson : Option String) (history : List ChatMessage) :
    List ProviderMsg :=
  ([⟨"system", systemPrompt, none⟩] ++
    (if 0 < history.length then (jsSliceLast10 history).map toProviderMsg else []) ++
    [⟨"user", prompt, none⟩]) ++ moduleOutputMsgs moduleOutputJson

/-- History rendering used by the prompt-concatenating adapters. -/
def historyLines (h : List ChatMessage) : String :=
  String.intercalate "\n" (h.map (fun m => m.role ++ ": " ++ m.content))

/-- Full prompt built by AIService.getGeminiResponse (main.js lines 266-279)
and also computed, though then discarded, by getOllamaResponse (lines
296-309): system prompt, last ten history entries, user prompt, optional
module output. -/
def geminiStyleFullPrompt (prompt systemPrompt : String)
    (moduleOutputJson : Option String) (history : List ChatMessage) : String :=
  systemPrompt ++
  (if 0 < history.length then "\n\nChat History:\n" ++ historyLines (jsSliceLast10 history)
   else "") ++
  "\n\nUser: " ++ prompt ++
  (match moduleOutputJson with
   | none => ""
   | some j =>
     "\n\nModule execution result: " ++ j ++
     "\n\nPlease respond to the user with the module execution result.")

/-- Request messages actually sent by AIService.getOllamaResponse (main.js
lines 312-321): only the system prompt, the user prompt and the optional
module-output pair.  The history argument is accepted (the source computes
a fullPrompt from it) but no history entry reaches the sent messages. -/
def getOllamaRequestMessages (prompt systemPrompt : String)
    (moduleOutputJson : Option String) (_history : List ChatMessage) :
    List ProviderMsg :=
  [⟨"system", systemPrompt, none⟩, ⟨"user", prompt, none⟩] ++
    moduleOutputMsgs moduleOutputJson

/-- A stored pending approval request (the values of
pendingModuleRequests). -/
structure PendingRequest where
  module : String
  command : String
  parameters : String
  originalPrompt : String
  aiResponse : String
  allModuleOutputs : List (String × String × RunResult)
  originalSessionId : String
  deriving DecidableEq, Repr

/-- Process-wide mutable state: the pending-approval table and the
per-session chat history, both JavaScript Maps modelled as partial maps. -/
structure ServerState where
  pending : String → Option PendingRequest
  chatHistory : String → Option (List ChatMessage)

/-- Map.prototype.set. -/
def mapSet {α : Type} (m : String → Option α) (k : String) (v : α) :
    String → Option α :=
  fun k' => if k' = k then some v else m k'

/-- Map.prototype.delete. -/
def mapDel {α : Type} (m : String → Option α) (k : String) :
    String → Option α :=
  fun k' => if k' = k then none else m k'

/-- Oracles for the external collaborators of one request: the Backend
Adapter (aiService.getResponse with the constant system prompt folded in),
markdown.toHTML, JSON.stringify in its compact and pretty forms, the module
registry, the generated request id, and the clock. -/
structure Ctx where
  registry : String → Option ModuleSpec
  ai : String → List ChatMessage → String
  md : String → String
  stringify : RunResult → String
  stringifyPretty : RunResult → String
  freshId : String
  now : String

/-- Observable effect trace of one request: module handler invocations and
Backend Adapter calls, in order. -/
inductive Eff where
  | ranModule (module command parameters : String)
  | aiCall (prompt : String)
  deriving DecidableEq, Repr

/-- JavaScript truthiness of an optional string field: absent and empty are
falsy. -/
def jsTruthy (s : Option String) : Bool :=
  match s with
  | none => false
  | some s => !(s == "")

/-- The continuation prompt template shared by the chain steps (main.js
lines 592-594, 738-740 and 765-767). -/
def buildNextPrompt (originalPrompt moduleName commandName resultJson : String) :
    String :=
  "Original user request: \"" ++ originalPrompt ++ "\". \n" ++
  "Module execution result for " ++ moduleName ++ "." ++ commandName ++ ": " ++
  resultJson ++ ".\n" ++
  "Based on this result, please provide a complete response to the user's original request. Only execute another module if the result is insufficient to answer the user's question. If you need to execute more modules, use the /run module syntax again."

/-- Shape of the JSON responses of the two handlers; absent fields are the
defaults. -/
structure Response where
  success : Bool := false
  message : String := ""
  requiresApproval : Bool := false
  requestId : Option String := none
  module : Option String := none
  command : Option String := none
  previousResult : Option String := none
  moduleResult : Option RunResult := none
  history : Option (List ChatMessage) := none
  directCommand : Bool := false
  denied : Bool := false
  deriving DecidableEq, Repr

/-- POST /message (main.js lines 504-700).  Field checks, direct-command
fast path, user-message append, the llm task: model round-trip, directive
parse, auto-approval of the list module with one continuation round-trip,
suspension into the pending table for any directive found at the second
parse, and the final-response paths.  Returns the JSON response, the new
server state, and the effect trace. -/
def postMessage (cx : Ctx) (st : ServerState)
    (userprompt typoftask sessionId : Option String) :
    Response × ServerState × List Eff :=
  if !(jsTruthy userprompt && jsTruthy typoftask) then
    ({ success := false, message := "Missing Fields" }, st, [])
  else
    let up := userprompt.getD ""
    let tt := typoftask.getD ""
    let sid := sessionId.getD "default"
    let st0 : ServerState :=
      match st.chatHistory sid with
      | some _ => st
      | none => { st with chatHistory := mapSet st.chatHistory sid [] }
    match parseModuleCommand up with
    | some dc =>
      let out := runModule cx.registry dc.module dc.command dc.parameters
      let hist2 := ((st0.chatHistory sid).getD []) ++
        [⟨"user", up, cx.now⟩,
         ⟨"assistant",
          "Direct command executed: " ++ dc.module ++ "." ++ dc.command ++
            "\nResult: " ++ cx.stringifyPretty out, cx.now⟩]
      ({ success := true,
         message := "<strong>Direct Command Result:</strong><br><pre>" ++
           cx.stringifyPretty out ++ "</pre>",
         moduleResult := some out, history := some hist2, directCommand := true },
       { st0 with chatHistory := mapSet st0.chatHistory sid hist2 },
       [Eff.ranModule dc.module dc.command dc.parameters])
    | none =>
      let hist1 := ((st0.chatHistory sid).getD []) ++ [⟨"user", up, cx.now⟩]
      let st1 : ServerState := { st0 with chatHistory := mapSet st0.chatHistory sid hist1 }
      if tt = "llm" then
        let aiResponse := cx.ai up hist1
        match parseModuleCommand aiResponse with
        | some mc =>
          if mc.module = "list" then
            let listOut := runModule cx.registry mc.module mc.command mc.parameters
            let nextPrompt := buildNextPrompt up mc.module mc.command (cx.stringify listOut)
            let finalResponse := cx.ai nextPrompt hist1
            match parseModuleCommand finalResponse with
            | some nmc =>
              let pr : PendingRequest :=
                ⟨nmc.module, nmc.command, nmc.parameters, up, finalResponse,
                 [(mc.module, mc.command, listOut)], sid⟩
              ({ success := true,
                 requiresApproval := true,
                 requestId := some cx.freshId,
                 module := some nmc.module,
                 command := some nmc.command,
                 previousResult := some (cx.md finalResponse),
                 message := "AI requests permission to execute another module." },
               { st1 with pending := mapSet st1.pending cx.freshId pr },
               [Eff.aiCall up, Eff.ranModule mc.module mc.command mc.parameters,
                Eff.aiCall nextPrompt])
            | none =>
              let hist2 := hist1 ++ [⟨"assistant", finalResponse, cx.now⟩]
              ({ success := true, message := cx.md finalResponse,
                 moduleResult := some listOut, history := some hist2 },
               { st1 with chatHistory := mapSet st1.chatHistory sid hist2 },
               [Eff.aiCall up, Eff.ranModule mc.module mc.command mc.parameters,
                Eff.aiCall nextPrompt])
          else
            let pr : PendingRequest :=
              ⟨mc.module, mc.command, mc.parameters, up, aiResponse, [], sid⟩
            ({ success := true,
               requiresApproval := true,
               requestId := some cx.freshId,
               module := some mc.module,
               command := some mc.command,
               message := "AI requests permission to execute a module. Please approve or deny." },
             { st1 with pending := mapSet st1.pending cx.freshId pr },
             [Eff.aiCall up])
        | none =>
          let hist2 := hist1 ++ [⟨"assistant", aiResponse, cx.now⟩]
          ({ success := true, message := cx.md aiResponse, history := some hist2 },
           { st1 with chatHistory := mapSet st1.chatHistory sid hist2 },
           [Eff.aiCall up])
      else
        ({ success := false, message := "Unknown task type" }, st1, [])

/-- POST /approve-module (main.js lines 702-862).  Missing-id and
unknown-id errors, unconditional removal of the found entry, the denial
response, and on approval: execution, one continuation round-trip,
auto-approval of a list directive found there with a second round-trip,
suspension of any directive found at the deepest parse, and the
final-response paths (of which the list-continuation one returns without
appending to the session history, and the plain one crashes into the catch
branch when the session log is gone). -/
def postApprove (cx : Ctx) (st : ServerState)
    (requestId : Option String) (approved : Bool) :
    Response × ServerState × List Eff :=
  if !(jsTruthy requestId) then
    ({ success := false, message := "Missing request ID" }, st, [])
  else
    let rid := requestId.getD ""
    match st.pending rid with
    | none =>
      ({ success := false, message := "Request not found or expired" }, st, [])
    | some pr =>
      let st1 : ServerState := { st with pending := mapDel st.pending rid }
      if !approved then
        ({ success := true, message := "Module execution denied by user.",
           denied := true }, st1, [])
      else
        let out := runModule cx.registry pr.module pr.command pr.parameters
        let updated := pr.allModuleOutputs ++ [(pr.module, pr.command, out)]
        let nextPrompt :=
          buildNextPrompt pr.originalPrompt pr.module pr.command (cx.stringify out)
        let orig := if pr.originalSessionId = "" then "default" else pr.originalSessionId
        let histA := (st1.chatHistory orig).getD []
        let finalResponse := cx.ai nextPrompt histA
        let effs0 := [Eff.ranModule pr.module pr.command pr.parameters,
                      Eff.aiCall nextPrompt]
        match parseModuleCommand finalResponse with
        | some nmc =>
          if nmc.module = "list" then
            let listOut := runModule cx.registry nmc.module nmc.command nmc.parameters
            let newUpdated := updated ++ [(nmc.module, nmc.command, listOut)]
            let nextPrompt2 :=
              buildNextPrompt pr.originalPrompt nmc.module nmc.command
                (cx.stringify listOut)
            let histB := (st1.chatHistory pr.originalSessionId).getD []
            let nextFinal := cx.ai nextPrompt2 histB
            let effs1 := effs0 ++
              [Eff.ranModule nmc.module nmc.command nmc.parameters,
               Eff.aiCall nextPrompt2]
            match parseModuleCommand nextFinal with
            | some ymc =>
              let pr2 : PendingRequest :=
                ⟨ymc.module, ymc.command, ymc.parameters, pr.originalPrompt,
                 nextFinal, newUpdated, pr.originalSessionId⟩
              ({ success := true,
                 requiresApproval := true,
                 requestId := some cx.freshId,
                 module := some ymc.module,
                 command := some ymc.command,
                 previousResult := some (cx.md nextFinal),
                 message := "AI requests permission to execute another module." },
               { st1 with pending := mapSet st1.pending cx.freshId pr2 }, effs1)
            | none =>
              ({ success := true, message := cx.md nextFinal,
                 moduleResult := some listOut }, st1, effs1)
          else
            let pr2 : PendingRequest :=
              ⟨nmc.module, nmc.command, nmc.parameters, pr.originalPrompt,
               finalResponse, updated, pr.originalSessionId⟩
            ({ success := true,
               requiresApproval := true,
               requestId := some cx.freshId,
               module := some nmc.module,
               command := some nmc.command,
               previousResult := some (cx.md finalResponse),
               message := "AI requests permission to execute another module." },
             { st1 with pending := mapSet st1.pending cx.freshId pr2 }, effs0)
        | none =>
          match st1.chatHistory orig with
          | none =>
            ({ success := false,
               message := "Module execution failed: Cannot read properties of undefined (reading 'push')" },
             st1, effs0)
          | some h =>
            let h2 := h ++ [⟨"assistant", finalResponse, cx.now⟩]
            ({ success := true, message := cx.md finalResponse,
               moduleResult := some out, history := some h2 },
             { st1 with chatHistory := mapSet st1.chatHistory orig h2 }, effs0)

/-- A nonempty run of whitespace characters: a token separator of the
grammar. -/
def IsSpaceRun (s : List Char) : Prop := s ≠ [] ∧ ∀ c ∈ s, isJsSpace c = true

/-- A nonempty run of word characters: a module or command token of the
grammar. -/
def IsWordRun (w : List Char) : Prop := w ≠ [] ∧ ∀ c ∈ w, isWordChar c = true

/-- Declarative statement of the spec grammar matching at the head of the
input: optional slash, the literal run, whitespace, the literal module,
whitespace, a module token, whitespace, a command token, and an arbitrary
remainder (the optional parameters are folded into the remainder, since
their presence does not affect whether a match exists). -/
def GrammarHeadMatch (l : List Char) : Prop :=
  ∃ sl s1 s2 s3 w1 w2 rest : List Char,
    (sl = [] ∨ sl = ['/']) ∧ IsSpaceRun s1 ∧ IsSpaceRun s2 ∧ IsSpaceRun s3 ∧
    IsWordRun w1 ∧ IsWordRun w2 ∧
    l = sl ++ ['r', 'u', 'n'] ++ s1 ++ ['m', 'o', 'd', 'u', 'l', 'e'] ++ s2 ++
        w1 ++ s3 ++ w2 ++ rest

/-- Grammar match starting at position i of the input. -/
def GrammarMatchAt (l : List Char) (i : Nat) : Prop := GrammarHeadMatch (l.drop i)

/-- The empty server state: no pending requests, no sessions. -/
def stEmpty : ServerState := ⟨fun _ => none, fun _ => none⟩

/-- A context whose model always answers with the list directive. -/
def ctxConstList : Ctx :=
  ⟨fun _ => none, fun _ _ => "/run module list listAllModules",
   fun s => s, fun _ => "r", fun _ => "R", "id1", "t"⟩

/-- A context whose model proposes the time module once, then the list
directive after a time execution, then plain text. -/
def ctxListThenDone : Ctx :=
  ⟨fun _ => none,
   fun p _ => if hasSubstr "time".toList p.toList
     then "/run module list listAllModules" else "done",
   fun s => s, fun _ => "r", fun _ => "R", "id2", "t"⟩

/-- A context whose model always answers with a time directive. -/
def ctxConstTime : Ctx :=
  ⟨fun _ => none, fun _ _ => "/run module time getTime",
   fun s => s, fun _ => "r", fun _ => "R", "id3", "t"⟩

/-- A stored pending request targeting the time module. -/
def prTime : PendingRequest := ⟨"time", "getDate", "", "x", "air", [], "s1"⟩

/-- A server state holding one pending request and one empty session. -/
def stPending : ServerState :=
  ⟨mapSet (fun _ => none) "rq" prTime, mapSet (fun _ => none) "s1" []⟩

/-- A command whose handler always throws. -/
def cmdThrow : CommandSpec := ⟨true, fun _ => .throw "boom"⟩

/-- A module exposing the throwing command under getDate. -/
def modThrow : ModuleSpec := ⟨fun c => if c = "getDate" then some cmdThrow else none⟩

/-- A registry exposing the throwing module under time. -/
def regThrow : String → Option ModuleSpec :=
  fun m => if m = "time" then some modThrow else none

theorem wordChar_not_jsSpace (c : Char) (h : isWordChar c = true) :
    isJsSpace c = false := by
  rw [← Bool.not_eq_true]
  intro hs
  simp only [isWordChar, Bool.or_eq_true, Bool.and_eq_true, decide_eq_true_eq] at h
  simp only [isJsSpace, Bool.or_eq_true, Bool.and_eq_true, decide_eq_true_eq] at hs
  omega

theorem lineTerm_jsSpace (c : Char) (h : isLineTerm c = true) :
    isJsSpace c = true := by
  simp only [isLineTerm, Bool.or_eq_true, decide_eq_true_eq] at h
  simp only [isJsSpace, Bool.or_eq_true, Bool.and_eq_true, decide_eq_true_eq]
  omega

theorem jsSpace_not_wordChar (c : Char) (h : isJsSpace c = true) :
    isWordChar c = false := by
  cases hw : isWordChar c
  · rfl
  · rw [wordChar_not_jsSpace c hw] at h
    cases h

theorem takeWhile_all_append (p : Char → Bool) (s t : List Char)
    (hs : ∀ c ∈ s, p c = true) (ht : ∀ c, t.head? = some c → p c = false) :
    (s ++ t).takeWhile p = s ∧ (s ++ t).dropWhile p = t := by
  induction s with
  | nil =>
    cases t with
    | nil => simp
    | cons c tl =>
      simp [List.takeWhile_cons, List.dropWhile_cons, ht c rfl]
  | cons a s ih =>
    have ha : p a = true := hs a (by simp)
    have h' := ih (fun c hc => hs c (by simp [hc]))
    simp [List.takeWhile_cons, List.dropWhile_cons, ha, h'.1, h'.2]

theorem stripLit_eq_some (lit : List Char) :
    ∀ l r : List Char, stripLit lit l = some r ↔ l = lit ++ r := by
  induction lit with
  | nil => intro l r; simp [stripLit]
  | cons c cs ih =>
    intro l r
    cases l with
    | nil => simp [stripLit]
    | cons x xs =>
      simp only [stripLit]
      by_cases hx : x = c
      · subst hx; simp [ih]
      · simp [hx]

theorem stripSpaces1_of_append (s t : List Char) (hs : IsSpaceRun s)
    (ht : ∀ c, t.head? = some c → isJsSpace c = false) :
    stripSpaces1 (s ++ t) = some t := by
  obtain ⟨hne, hall⟩ := hs
  have h := takeWhile_all_append isJsSpace s t hall ht
  simp [stripSpaces1, h.1, h.2, hne]

theorem stripSpaces1_eq_some (l r : List Char) (h : stripSpaces1 l = some r) :
    ∃ s, IsSpaceRun s ∧ l = s ++ r := by
  unfold stripSpaces1 at h
  by_cases he : (l.takeWhile isJsSpace).isEmpty = true
  · rw [if_pos he] at h
    cases h
  · rw [if_neg he] at h
    injection h with h
    refine ⟨l.takeWhile isJsSpace,
      ⟨by simpa [List.isEmpty_iff] using he, fun c hc => List.mem_takeWhile_imp hc⟩, ?_⟩
    rw [← h]
    exact (List.takeWhile_append_dropWhile _ _).symm

theorem takeWord1_of_append (w t : List Char) (hw : IsWordRun w)
    (ht : ∀ c, t.head? = some c → isWordChar c = false) :
    takeWord1 (w ++ t) = some (w, t) := by
  obtain ⟨hne, hall⟩ := hw
  have h := takeWhile_all_append isWordChar w t hall ht
  simp [takeWord1, h.1, h.2, hne]

theorem takeWord1_succeeds (c : Char) (tl : List Char) (h : isWordChar c = true) :
    takeWord1 (c :: tl) =
      some ((c :: tl).takeWhile isWordChar, (c :: tl).dropWhile isWordChar) := by
  simp [takeWord1, List.takeWhile_cons, h]

theorem takeWord1_eq_some (l : List Char) (w r : List Char)
    (h : takeWord1 l = some (w, r)) : IsWordRun w ∧ l = w ++ r := by
  unfold takeWord1 at h
  by_cases he : (l.takeWhile isWordChar).isEmpty = true
  · rw [if_pos he] at h
    cases h
  · rw [if_neg he] at h
    injection h with h
    injection h with hw hr
    subst hw; subst hr
    exact ⟨⟨by simpa [List.isEmpty_iff] using he,
      fun c hc => List.mem_takeWhile_imp hc⟩,
      (List.takeWhile_append_dropWhile _ _).symm⟩

theorem matchAt_some_grammar (l : List Char) (m : RawMatch)
    (h : matchAt l = some m) :
    GrammarHeadMatch l ∧ ∀ c ∈ m.module, isWordChar c = true := by
  unfold matchAt at h
  cases h1 : stripLit ['r', 'u', 'n'] (stripSlash l) with
  | none => rw [h1, Option.none_bind'] at h; cases h
  | some l1 =>
  rw [h1, Option.some_bind'] at h
  cases h2 : stripSpaces1 l1 with
  | none => rw [h2, Option.none_bind'] at h; cases h
  | some l2 =>
  rw [h2, Option.some_bind'] at h
  cases h3 : stripLit ['m', 'o', 'd', 'u', 'l', 'e'] l2 with
  | none => rw [h3, Option.none_bind'] at h; cases h
  | some l3 =>
  rw [h3, Option.some_bind'] at h
  cases h4 : stripSpaces1 l3 with
  | none => rw [h4, Option.none_bind'] at h; cases h
  | some l4 =>
  rw [h4, Option.some_bind'] at h
  cases h5 : takeWord1 l4 with
  | none => rw [h5, Option.none_bind'] at h; cases h
  | some p5 =>
  rw [h5, Option.some_bind'] at h
  cases h6 : stripSpaces1 p5.2 with
  | none => rw [h6, Option.none_bind'] at h; cases h
  | some l6 =>
  rw [h6, Option.some_bind'] at h
  cases h7 : takeWord1 l6 with
  | none => rw [h7, Option.none_bind'] at h; cases h
  | some p7 =>
  rw [h7, Option.some_bind'] at h
  injection h with h
  have e1 : stripSlash l = ['r', 'u', 'n'] ++ l1 := (stripLit_eq_some _ _ _).mp h1
  obtain ⟨s1, hs1, e2⟩ := stripSpaces1_eq_some _ _ h2
  have e3 : l2 = ['m', 'o', 'd', 'u', 'l', 'e'] ++ l3 := (stripLit_eq_some _ _ _).mp h3
  obtain ⟨s2, hs2, e4⟩ := stripSpaces1_eq_some _ _ h4
  have h5' : takeWord1 l4 = some (p5.1, p5.2) := by rw [h5]
  obtain ⟨hw1, e5⟩ := takeWord1_eq_some _ _ _ h5'
  obtain ⟨s3, hs3, e6⟩ := stripSpaces1_eq_some _ _ h6
  have h7' : takeWord1 l6 = some (p7.1, p7.2) := by rw [h7]
  obtain ⟨hw2, e7⟩ := takeWord1_eq_some _ _ _ h7'
  have hmod : ∀ c ∈ m.module, isWordChar c = true := by
    intro c hc
    rw [← h] at hc
    exact hw1.2 c hc
  refine ⟨?_, hmod⟩
  have core : stripSlash l =
      ['r', 'u', 'n'] ++ s1 ++ ['m', 'o', 'd', 'u', 'l', 'e'] ++ s2 ++
        p5.1 ++ s3 ++ p7.1 ++ p7.2 := by
    rw [e1, e2, e3, e4, e5, e6, e7]; simp
  cases l with
  | nil =>
    rw [show stripSlash [] = [] from rfl] at core
    cases core
  | cons c r =>
    by_cases hc : c = '/'
    · subst hc
      rw [show stripSlash ('/' :: r) = r from by simp [stripSlash]] at core
      exact ⟨['/'], s1, s2, s3, p5.1, p7.1, p7.2, Or.inr rfl, hs1, hs2, hs3,
        hw1, hw2, by rw [core]; simp⟩
    · rw [show stripSlash (c :: r) = c :: r from by simp [stripSlash, hc]] at core
      exact ⟨[], s1, s2, s3, p5.1, p7.1, p7.2, Or.inl rfl, hs1, hs2, hs3,
        hw1, hw2, by rw [core]; simp⟩

theorem grammar_matchAt_some (l : List Char) (h : GrammarHeadMatch l) :
    ∃ m, matchAt l = some m := by
  obtain ⟨sl, s1, s2, s3, w1, w2, rest, hsl, hs1, hs2, hs3, hw1, hw2, e⟩ := h
  have hslash : stripSlash l =
      ['r', 'u', 'n'] ++ (s1 ++ (['m', 'o', 'd', 'u', 'l', 'e'] ++ (s2 ++
        (w1 ++ (s3 ++ (w2 ++ rest)))))) := by
    rcases hsl with h0 | h0 <;> subst h0 <;> rw [e] <;> simp [stripSlash]
  have e1 : stripLit ['r', 'u', 'n'] (stripSlash l) =
      some (s1 ++ (['m', 'o', 'd', 'u', 'l', 'e'] ++ (s2 ++
        (w1 ++ (s3 ++ (w2 ++ rest)))))) := by
    rw [(stripLit_eq_some _ _ _), hslash]
  have e2 : stripSpaces1 (s1 ++ (['m', 'o', 'd', 'u', 'l', 'e'] ++ (s2 ++
      (w1 ++ (s3 ++ (w2 ++ rest)))))) =
      some (['m', 'o', 'd', 'u', 'l', 'e'] ++ (s2 ++ (w1 ++ (s3 ++ (w2 ++ rest))))) := by
    apply stripSpaces1_of_append _ _ hs1
    intro c hc
    simp at hc
    subst hc
    decide
  have e3 : stripLit ['m', 'o', 'd', 'u', 'l', 'e']
      (['m', 'o', 'd', 'u', 'l', 'e'] ++ (s2 ++ (w1 ++ (s3 ++ (w2 ++ rest))))) =
      some (s2 ++ (w1 ++ (s3 ++ (w2 ++ rest)))) := by
    rw [(stripLit_eq_some _ _ _)]
  obtain ⟨c1, w1tl, hw1e⟩ : ∃ c tl, w1 = c :: tl := by
    cases w1 with
    | nil => exact absurd rfl hw1.1
    | cons c tl => exact ⟨c, tl, rfl⟩
  have hc1w : isWordChar c1 = true := hw1.2 c1 (by rw [hw1e]; simp)
  have e4 : stripSpaces1 (s2 ++ (w1 ++ (s3 ++ (w2 ++ rest)))) =
      some (w1 ++ (s3 ++ (w2 ++ rest))) := by
    apply stripSpaces1_of_append _ _ hs2
    intro c hc
    rw [hw1e] at hc
    simp at hc
    subst hc
    exact wordChar_not_jsSpace c1 hc1w
  obtain ⟨c3, s3tl, hs3e⟩ : ∃ c tl, s3 = c :: tl := by
    cases s3 with
    | nil => exact absurd rfl hs3.1
    | cons c tl => exact ⟨c, tl, rfl⟩
  have e5 : takeWord1 (w1 ++ (s3 ++ (w2 ++ rest))) =
      some (w1, s3 ++ (w2 ++ rest)) := by
    apply takeWord1_of_append _ _ hw1
    intro c hc
    rw [hs3e] at hc
    simp at hc
    subst hc
    exact jsSpace_not_wordChar c3 (hs3.2 c3 (by rw [hs3e]; simp))
  obtain ⟨c2, w2tl, hw2e⟩ : ∃ c tl, w2 = c :: tl := by
    cases w2 with
    | nil => exact absurd rfl hw2.1
    | cons c tl => exact ⟨c, tl, rfl⟩
  have e6 : stripSpaces1 (s3 ++ (w2 ++ rest)) = some (w2 ++ rest) := by
    apply stripSpaces1_of_append _ _ hs3
    intro c hc
    rw [hw2e] at hc
    simp at hc
    subst hc
    exact wordChar_not_jsSpace c2 (hw2.2 c2 (by rw [hw2e]; simp))
  have e7 : takeWord1 (w2 ++ rest) =
      some ((w2 ++ rest).takeWhile isWordChar, (w2 ++ rest).dropWhile isWordChar) := by
    rw [hw2e]
    exact takeWord1_succeeds c2 (w2tl ++ rest) (hw2.2 c2 (by rw [hw2e]; simp))
  refine ⟨⟨w1, (w2 ++ rest).takeWhile isWordChar,
    (optParams ((w2 ++ rest).dropWhile isWordChar)).getD []⟩, ?_⟩
  unfold matchAt
  rw [e1]; simp only [Option.some_bind']
  rw [e2]; simp only [Option.some_bind']
  rw [e3]; simp only [Option.some_bind']
  rw [e4]; simp only [Option.some_bind']
  rw [e5]; simp only [Option.some_bind']
  rw [e6]; simp only [Option.some_bind']
  rw [e7]; simp only [Option.some_bind']

theorem matchAt_none_iff (l : List Char) :
    matchAt l = none ↔ ¬ GrammarHeadMatch l := by
  constructor
  · intro h hg
    obtain ⟨m, hm⟩ := grammar_matchAt_some l hg
    rw [hm] at h
    cases h
  · intro h
    cases hm : matchAt l with
    | none => rfl
    | some m => exact absurd (matchAt_some_grammar l m hm).1 h

theorem matchAt_nil : matchAt [] = none := rfl

theorem scan_eq_none_iff (l : List Char) :
    scan l = none ↔ ∀ i, matchAt (l.drop i) = none := by
  induction l with
  | nil =>
    simp [scan, matchAt_nil]
  | cons c rest ih =>
    cases hm : matchAt (c :: rest) with
    | some m =>
      constructor
      · intro h; simp [scan, hm] at h
      · intro h
        have := h 0
        rw [List.drop_zero, hm] at this
        cases this
    | none =>
      rw [scan, hm, ih]
      constructor
      · intro h i
        cases i with
        | zero => simpa using hm
        | succ k => simpa using h k
      · intro h k
        simpa using h (k + 1)

theorem scan_eq_some (l : List Char) (m : RawMatch) (h : scan l = some m) :
    ∃ i, matchAt (l.drop i) = some m ∧ ∀ j < i, matchAt (l.drop j) = none := by
  induction l with
  | nil =>
    rw [scan, matchAt_nil] at h
    cases h
  | cons c rest ih =>
    cases hm : matchAt (c :: rest) with
    | some m' =>
      rw [scan, hm] at h
      simp only [Option.some_inj] at h
      subst h
      exact ⟨0, by simpa using hm, fun j hj => absurd hj (by omega)⟩
    | none =>
      rw [scan, hm] at h
      obtain ⟨i, h1, h2⟩ := ih h
      refine ⟨i + 1, by simpa using h1, fun j hj => ?_⟩
      cases j with
      | zero => simpa using hm
      | succ k => simpa using h2 k (by omega)

theorem scan_module_wordChars (l : List Char) (m : RawMatch)
    (h : scan l = some m) : ∀ c ∈ m.module, isWordChar c = true := by
  obtain ⟨i, h1, _⟩ := scan_eq_some l m h
  exact (matchAt_some_grammar _ m h1).2

theorem parse_eq_map_scan (text : String) :
    parseModuleCommand text = (scan text.toList).map RawMatch.toDirective := by
  unfold parseModuleCommand
  cases hs : scan text.toList with
  | none => rfl
  | some m =>
    have hw := scan_module_wordChars _ _ hs
    have hnd : m.module.contains '.' = false := by
      cases hc : m.module.contains '.'
      · rfl
      · have hmem : ('.' : Char) ∈ m.module := by
          simpa [List.contains] using hc
        have := hw '.' hmem
        cases this
    dsimp only [Option.map]
    rw [if_neg (by rw [hnd]; simp)]
    rfl

theorem jsTruthy_some {s : String} (h : s ≠ "") : jsTruthy (some s) = true := by
  simp [jsTruthy, h]

theorem postApprove_unknown (cx : Ctx) (st : ServerState) (rid : String)
    (b : Bool) (h1 : rid ≠ "") (h5 : st.pending rid = none) :
    postApprove cx st (some rid) b =
      ({ success := false, message := "Request not found or expired" }, st, []) := by
  unfold postApprove
  rw [jsTruthy_some h1]
  simp only [Bool.not_true, Bool.false_eq_true, if_false, Option.getD_some]
  rw [h5]

theorem postApprove_pending_self (cx : Ctx) (st : ServerState) (rid : String)
    (pr : PendingRequest) (b : Bool) (h2 : cx.freshId ≠ rid)
    (h3 : st.pending rid = some pr) (h1 : rid ≠ "") :
    (postApprove cx st (some rid) b).2.1.pending rid = none := by
  unfold postApprove
  rw [jsTruthy_some h1]
  simp only [Bool.not_true, Bool.false_eq_true, if_false, Option.getD_some]
  rw [h3]
  cases b with
  | false => simp [mapDel]
  | true =>
    simp only [Bool.not_true, Bool.false_eq_true, if_false]
    split
    · split
      · split
        · simp [mapSet, mapDel, Ne.symm h2]
        · simp [mapDel]
      · simp [mapSet, mapDel, Ne.symm h2]
    · split
      · simp [mapDel]
      · simp [mapDel]

/-- C2: the first approve-module call with a stored request id removes the
entry, whatever the decision and whatever the approved execution then does;
a second call with the same id, and any call with a truthy id that was
never stored, returns the request-not-found error and leaves the state
unchanged rather than being a silent no-op. -/
theorem approve_resolution_exactly_once
    (cx cx2 cx3 : Ctx) (st st3 : ServerState) (rid rid3 : String)
    (pr : PendingRequest) (b b2 b3 : Bool)
    (h1 : rid ≠ "") (h2 : cx.freshId ≠ rid) (h3 : st.pending rid = some pr)
    (h4 : rid3 ≠ "") (h5 : st3.pending rid3 = none) :
    ((postApprove cx st (some rid) b).2.1.pending rid = none) ∧
    (postApprove cx2 (postApprove cx st (some rid) b).2.1 (some rid) b2 =
      ({ success := false, message := "Request not found or expired" },
       (postApprove cx st (some rid) b).2.1, [])) ∧
    (postApprove cx3 st3 (some rid3) b3 =
      ({ success := false, message := "Request not found or expired" }, st3, [])) := by
  have hp := postApprove_pending_self cx st rid pr b h2 h3 h1
  exact ⟨hp, postApprove_unknown cx2 _ rid b2 h1 hp,
    postApprove_unknown cx3 st3 rid3 b3 h4 h5⟩

/-- Witness: the resolution invariant applied at a concrete state. -/
theorem approve_resolution_exactly_once_witness :
    (postApprove ctxConstList stPending (some "rq") false).2.1.pending "rq" = none :=
  (approve_resolution_exactly_once ctxConstList ctxConstList ctxConstList
    stPending stPending "rq" "zz" prTime false false false
    (by decide) (by decide) (by decide) (by decide) (by decide)).1

/-- C4: denial of a stored request removes it, responds with success and
denied true, invokes no module handler and makes no Backend Adapter call
(the effect trace is empty), and a second denial of the same id returns the
not-found error with no side effect. -/
theorem denial_removes_and_skips_execution
    (cx cx2 : Ctx) (st : ServerState) (rid : String) (pr : PendingRequest)
    (h1 : rid ≠ "") (h3 : st.pending rid = some pr) :
    (postApprove cx st (some rid) false =
      ({ success := true, message := "Module execution denied by user.",
         denied := true },
       { st with pending := mapDel st.pending rid }, [])) ∧
    (postApprove cx2 { st with pending := mapDel st.pending rid } (some rid) false =
      ({ success := false, message := "Request not found or expired" },
       { st with pending := mapDel st.pending rid }, [])) := by
  constructor
  · unfold postApprove
    rw [jsTruthy_some h1]
    simp only [Bool.not_true, Bool.false_eq_true, if_false, Option.getD_some]
    rw [h3]
    rfl
  · exact postApprove_unknown cx2 _ rid false h1 (by simp [mapDel])

/-- Witness: denial applied at a concrete state. -/
theorem denial_removes_and_skips_execution_witness :
    postApprove ctxConstList stPending (some "rq") false =
      ({ success := true, message := "Module execution denied by user.",
         denied := true },
       { stPending with pending := mapDel stPending.pending "rq" }, []) :=
  (denial_removes_and_skips_execution ctxConstList ctxConstList stPending "rq"
    prTime (by decide) (by decide)).1

theorem postApprove_denial_chatHistory (cx : Ctx) (st : ServerState)
    (rid : Option String) :
    (postApprove cx st rid false).2.1.chatHistory = st.chatHistory := by
  unfold postApprove
  by_cases h0 : (!jsTruthy rid) = true
  · rw [if_pos h0]
  · rw [if_neg h0]
    cases hp : st.pending (rid.getD "") with
    | none => simp only [hp]
    | some pr => simp [hp]

theorem initSession_getD (st : ServerState) (s : String) :
    (((match st.chatHistory s with
       | some _ => st
       | none => { st with chatHistory := mapSet st.chatHistory s [] }) :
        ServerState).chatHistory s).getD [] = (st.chatHistory s).getD [] := by
  cases h : st.chatHistory s with
  | some l => simp [h]
  | none => simp [h, mapSet]

theorem postMessage_suspension_hist (cx : Ctx) (st : ServerState)
    (up tt sid : Option String) :
    (postMessage cx st up tt sid).1.requiresApproval = false ∨
    (postMessage cx st up tt sid).2.1.chatHistory (sid.getD "default") =
      some (((st.chatHistory (sid.getD "default")).getD []) ++
        [⟨"user", up.getD "", cx.now⟩]) := by
  simp only [postMessage]
  split
  · left; rfl
  · split
    · left; rfl
    · split
      · split
        · split
          · split
            · right; simp [mapSet, initSession_getD]
            · left; rfl
          · right; simp [mapSet, initSession_getD]
        · left; rfl
      · left; rfl

/-- C10: whenever POST /message suspends (requiresApproval true), the
session log has grown by exactly the one user entry, with no assistant
entry for the suspended turn; and a subsequent denial of the returned
request id appends nothing to any session log. -/
theorem suspension_history_single_user_entry
    (cx cx2 : Ctx) (st : ServerState) (up tt sid : Option String)
    (h : (postMessage cx st up tt sid).1.requiresApproval = true) :
    ((postMessage cx st up tt sid).2.1.chatHistory (sid.getD "default") =
      some (((st.chatHistory (sid.getD "default")).getD []) ++
        [⟨"user", up.getD "", cx.now⟩])) ∧
    ((postApprove cx2 (postMessage cx st up tt sid).2.1
        (postMessage cx st up tt sid).1.requestId false).2.1.chatHistory =
      (postMessage cx st up tt sid).2.1.chatHistory) := by
  refine ⟨?_, postApprove_denial_chatHistory cx2 _ _⟩
  rcases postMessage_suspension_hist cx st up tt sid with hf | hist
  · rw [hf] at h; cases h
  · exact hist

/-- Witness: a concrete suspension and its denial. -/
theorem suspension_history_single_user_entry_witness :
    ((postMessage ctxConstTime stEmpty (some "q") (some "llm") none).2.1.chatHistory
        ((none : Option String).getD "default") =
      some (((stEmpty.chatHistory ((none : Option String).getD "default")).getD []) ++
        [⟨"user", (some "q").getD "", ctxConstTime.now⟩])) ∧
    ((postApprove ctxConstTime (postMessage ctxConstTime stEmpty (some "q") (some "llm") none).2.1
        (postMessage ctxConstTime stEmpty (some "q") (some "llm") none).1.requestId
        false).2.1.chatHistory =
      (postMessage ctxConstTime stEmpty (some "q") (some "llm") none).2.1.chatHistory) :=
  suspension_history_single_user_entry ctxConstTime ctxConstTime stEmpty
    (some "q") (some "llm") none (by decide)

/-- C1: the auto-approve invariant fails at chain depth two.  With a model
that always emits the list directive, POST /message executes the first list
directive without suspension and re-invokes the adapter with the result
folded in, but then stores a PendingApproval for the second list directive
and answers requiresApproval true for module list. -/
theorem list_directive_suspended_at_depth_two :
    (postMessage ctxConstList stEmpty (some "hi") (some "llm") none).1.requiresApproval
        = true ∧
    (postMessage ctxConstList stEmpty (some "hi") (some "llm") none).1.module
        = some "list" ∧
    ((postMessage ctxConstList stEmpty (some "hi") (some "llm") none).2.1.pending
        "id1").map (fun q => q.module) = some "list" ∧
    (postMessage ctxConstList stEmpty (some "hi") (some "llm") none).2.2 =
      [Eff.aiCall "hi",
       Eff.ranModule "list" "listAllModules" "",
       Eff.aiCall (buildNextPrompt "hi" "list" "listAllModules" "r")] := by
  decide

/-- C3: the dotted directive spelling does not parse: the module group of
the regexp is built from word characters, which exclude the dot, so the
dot-splitting branch never receives a match; the undotted spelling of the
same directive parses as expected. -/
theorem dotted_directive_parses_to_none :
    parseModuleCommand "/run module websearch.search foo" = none ∧
    parseModuleCommand "run module websearch.search foo" = none ∧
    parseModuleCommand "/run module websearch search foo" =
      some ⟨"websearch", "search", "foo"⟩ := by
  decide

/-- C5: in the approve-module flow, when the continuation emits a list
directive (auto-approved) and the following model output contains no
directive, the final assistant-visible response is returned to the caller
with no session-history append at all: the chat history is untouched and
the response carries no history field. -/
theorem approved_list_continuation_skips_history_append :
    (postApprove ctxListThenDone stPending (some "rq") true).1.success = true ∧
    (postApprove ctxListThenDone stPending (some "rq") true).1.requiresApproval
        = false ∧
    (postApprove ctxListThenDone stPending (some "rq") true).1.message = "done" ∧
    (postApprove ctxListThenDone stPending (some "rq") true).1.history = none ∧
    (postApprove ctxListThenDone stPending (some "rq") true).2.1.chatHistory =
      stPending.chatHistory := by
  refine ⟨by decide, by decide, by decide, by decide, rfl⟩

/-- C6 counterexample: a request whose userprompt is a direct command and
whose typoftask is not the recognized kind takes the direct-execution path
and succeeds, instead of returning the unknown-task-type failure. -/
theorem direct_command_bypasses_task_type_check :
    (postMessage ctxConstList stEmpty (some "/run module time getDate")
        (some "weird") none).1.success = true ∧
    (postMessage ctxConstList stEmpty (some "/run module time getDate")
        (some "weird") none).1.directCommand = true ∧
    (postMessage ctxConstList stEmpty (some "/run module time getDate")
        (some "weird") none).1.message ≠ "Unknown task type" := by
  decide

/-- C6 amended: when both fields are present (truthy), the typoftask is not
the recognized kind, and the userprompt does not parse as a directive, the
response is the unknown-task-type failure. -/
theorem unknown_task_type_response (cx : Ctx) (st : ServerState)
    (up tt sid : Option String) (h1 : jsTruthy up = true)
    (h2 : jsTruthy tt = true) (h3 : ¬ (tt.getD "" = "llm"))
    (h4 : parseModuleCommand (up.getD "") = none) :
    (postMessage cx st up tt sid).1 =
      { success := false, message := "Unknown task type" } := by
  unfold postMessage
  simp only [h1, h2, Bool.and_self, Bool.not_true, Bool.false_eq_true, if_false, h4]
  rw [if_neg h3]

/-- Witness: the amended unknown-task-type behavior at a concrete input. -/
theorem unknown_task_type_response_witness :
    (postMessage ctxConstList stEmpty (some "hello") (some "nope") none).1 =
      { success := false, message := "Unknown task type" } :=
  unknown_task_type_response ctxConstList stEmpty (some "hello") (some "nope")
    none (by decide) (by decide) (by decide) (by decide)

/-- C7: the OpenAI request builder folds in exactly the most recent ten
history entries (all of them when fewer), but the Ollama request messages
contain no history entry at all even for a nonempty history: the source
computes a history-bearing fullPrompt and then does not send it. -/
theorem history_forwarding_per_provider :
    (∀ (p s : String) (mo : Option String) (h : List ChatMessage),
      getOpenAIRequestMessages p s mo h =
        ([⟨"system", s, none⟩] ++ (h.drop (h.length - 10)).map toProviderMsg ++
          [⟨"user", p, none⟩]) ++ moduleOutputMsgs mo) ∧
    (getOllamaRequestMessages "p" "s" none [⟨"user", "earlier", "t0"⟩] =
      [⟨"system", "s", none⟩, ⟨"user", "p", none⟩]) := by
  constructor
  · intro p s mo h
    unfold getOpenAIRequestMessages jsSliceLast10
    cases h with
    | nil => simp
    | cons a t => simp
  · decide

/-- C9: at the Registry boundary, a handler that returns normally yields
the structured success object, a handler that throws yields the structured
error object with the thrown message (the exception never propagates), and
a direct-command HTTP request always produces a successful direct-command
response whatever the module run returns. -/
theorem runModule_error_containment
    (reg : String → Option ModuleSpec) (m c p v e : String)
    (ms : ModuleSpec) (cmd : CommandSpec)
    (hm : reg m = some ms) (hc : ms.commands c = some cmd)
    (hf : cmd.isFunction = true) :
    (cmd.run (parseParamsJS p) = .ret v → runModule reg m c p = .ok v) ∧
    (cmd.run (parseParamsJS p) = .throw e → runModule reg m c p = .err e) ∧
    (∀ (cx : Ctx) (st : ServerState) (up tt sid : Option String) (dc : Directive),
      jsTruthy up = true → jsTruthy tt = true →
      parseModuleCommand (up.getD "") = some dc →
      (postMessage cx st up tt sid).1.success = true ∧
      (postMessage cx st up tt sid).1.directCommand = true) := by
  refine ⟨?_, ?_, ?_⟩
  · intro hr
    unfold runModule
    simp only [hm, hc, hf, Bool.not_true, Bool.false_eq_true, if_false, hr]
  · intro hr
    unfold runModule
    simp only [hm, hc, hf, Bool.not_true, Bool.false_eq_true, if_false, hr]
  · intro cx st up tt sid dc hu ht hdc
    unfold postMessage
    simp only [hu, ht, Bool.and_self, Bool.not_true, Bool.false_eq_true,
      if_false, hdc]
    exact ⟨trivial, trivial⟩

/-- Witness: a thrown handler exception becomes a structured error. -/
theorem runModule_error_containment_witness :
    runModule regThrow "time" "getDate" "" = RunResult.err "boom" :=
  (runModule_error_containment regThrow "time" "getDate" "" "v" "boom"
    modThrow cmdThrow rfl rfl rfl).2.1 rfl

/-- C8: the directive parser is total (none on the empty input), returns
none exactly when no position of the text matches the grammar, and returns
at most one directive: the rendering of the match at the first matching
position. -/
theorem parseModuleCommand_first_match_contract :
    parseModuleCommand "" = none ∧
    ∀ text : String,
      (parseModuleCommand text = none ↔ ∀ i, ¬ GrammarMatchAt text.toList i) ∧
      (∀ d, parseModuleCommand text = some d →
        ∃ i m, matchAt (text.toList.drop i) = some m ∧ d = m.toDirective ∧
          GrammarMatchAt text.toList i ∧
          ∀ j < i, ¬ GrammarMatchAt text.toList j) := by
  refine ⟨by decide, fun text => ⟨?_, ?_⟩⟩
  · rw [parse_eq_map_scan]
    constructor
    · intro h i
      have hsc : scan text.toList = none := by
        cases hs : scan text.toList with
        | none => rfl
        | some m => rw [hs] at h; cases h
      exact (matchAt_none_iff _).mp ((scan_eq_none_iff text.toList).mp hsc i)
    · intro h
      have hsc : scan text.toList = none := by
        rw [scan_eq_none_iff]
        intro i
        exact (matchAt_none_iff _).mpr (h i)
      rw [hsc]
      rfl
  · intro d hd
    rw [parse_eq_map_scan] at hd
    cases hs : scan text.toList with
    | none => rw [hs] at hd; cases hd
    | some m =>
      rw [hs] at hd
      injection hd with hd
      obtain ⟨i, hmi, hnone⟩ := scan_eq_some _ _ hs
      exact ⟨i, m, hmi, hd.symm, (matchAt_some_grammar _ _ hmi).1,
        fun j hj => (matchAt_none_iff _).mp (hnone j hj)⟩

/-- Witness: the first-match contract applied at a concrete input. -/
theorem parseModuleCommand_first_match_contract_witness :
    ∃ i m, matchAt (("/run module time getDate x").toList.drop i) = some m ∧
      (⟨"time", "getDate", "x"⟩ : Directive) = m.toDirective ∧
      GrammarMatchAt ("/run module time getDate x").toList i ∧
      ∀ j < i, ¬ GrammarMatchAt ("/run module time getDate x").toList j :=
  (parseModuleCommand_first_match_contract.2 "/run module time getDate x").2
    ⟨"time", "getDate", "x"⟩ (by decide)
